import Mathlib

/-!
Verification of the courier message-ingest pipeline against its
natural-language specification.

The Go source is embedded shallowly: slices become `List`, the in-flight
FIFO becomes a structure holding its item list, callbacks that may fail
return `Option Err` (`some` is the Go non-nil error), and side effects
(eviction callbacks, calls to collaborators) are recorded as explicit
event traces.  Machine integers only ever hold small counts here, so they
are modelled as `Nat`.
-/

namespace Courier

/-- Go errors: `none` is the nil error, `some e` the non-nil error `e`. -/
abbrev Err := String

/-- `models.Record`: identifiers, receipt and body are abstracted to `Nat`
(the code treats them as opaque). `id` is the locally generated UUID,
`recordID` the source message id, `receipt` the ack handle, `body` the
payload. -/
structure Record where
  id : Nat
  recordID : Nat
  receipt : Nat
  body : Nat
  deriving DecidableEq, Repr

/-- `fifo.KeyValue` from pkg/fifo/fifo.go. -/
structure KeyValue where
  key : Nat
  value : Record
  deriving DecidableEq, Repr

/-- `fifo.EvictionReason` from pkg/fifo/fifo.go. -/
inductive EvictionReason where
  | purged
  | popped
  | removed
  | dequeued
  deriving DecidableEq, Repr

/-- The in-flight FIFO (pkg/fifo/fifo.go): an insertion-ordered list of
key/value pairs.  The eviction callback is modelled by returning traces of
`(reason, entry)` events from the operations that fire it. -/
structure FIFO where
  items : List KeyValue
  deriving DecidableEq, Repr

/-- Result of `FIFO.Dequeue`: the FIFO after the call, the returned
`dequeued` slice, the eviction events fired (in order), and the returned
error. -/
structure DequeueResult where
  fifo : FIFO
  dequeued : List KeyValue
  evictions : List (EvictionReason × KeyValue)
  err : Option Err
  deriving DecidableEq, Repr

/-- The loop body of `FIFO.Dequeue` (pkg/fifo/fifo.go lines 129-142):
walk the items from the head; on the first `fn` error keep the failing
entry and everything after it (`f.items = f.items[k:]`) and return the
entries already processed together with the error; on success of every
entry truncate the items (`f.items = f.items[:0]`).  Each successful
entry fires the `Dequeued` eviction before being appended to the result. -/
def dequeueLoop (fn : Nat → Record → Option Err) : List KeyValue → DequeueResult
  | [] => ⟨⟨[]⟩, [], [], none⟩
  | kv :: rest =>
    match fn kv.key kv.value with
    | some e => ⟨⟨kv :: rest⟩, [], [], some e⟩
    | none =>
      let r := dequeueLoop fn rest
      ⟨r.fifo, kv :: r.dequeued, (EvictionReason.dequeued, kv) :: r.evictions, r.err⟩

/-- `FIFO.Dequeue` from pkg/fifo/fifo.go. -/
def FIFO.Dequeue (f : FIFO) (fn : Nat → Record → Option Err) : DequeueResult :=
  dequeueLoop fn f.items

/-- `FIFO.Add` from pkg/fifo/fifo.go: always appends at the tail. -/
def FIFO.Add (f : FIFO) (key : Nat) (value : Record) : FIFO :=
  ⟨f.items ++ [⟨key, value⟩]⟩

/-- `FIFO.Len` from pkg/fifo/fifo.go. -/
def FIFO.Len (f : FIFO) : Nat :=
  f.items.length

/-- `FIFO.Slice` from pkg/fifo/fifo.go: a snapshot of the items. -/
def FIFO.Slice (f : FIFO) : List KeyValue :=
  f.items

/-- `FIFO.Purge` from pkg/fifo/fifo.go: empties the FIFO, firing the
`Purged` eviction for every entry in order.  Returns the new FIFO and the
eviction trace. -/
def FIFO.Purge (f : FIFO) : FIFO × List (EvictionReason × KeyValue) :=
  (⟨[]⟩, f.items.map (fun kv => (EvictionReason.purged, kv)))

/-- The consumer state machine's states (pkg/consumer/consumer.go):
`gather`, `replicate` and `failure` are the state functions; commit is a
sub-step of replicate. -/
inductive Phase where
  | gather
  | replicate
  | failure
  deriving DecidableEq, Repr

/-- The per-consumer scalars of `Consumer` (pkg/consumer/consumer.go)
that the state functions read and write.  `activeSince = 0` encodes Go's
zero `time.Time`; metric counters are modelled as exact naturals. -/
structure ConsumerState where
  fifo : FIFO
  activeSince : Nat
  activeTargetAge : Nat
  activeTargetSize : Nat
  gatherErrors : Nat
  consumedSegments : Nat
  consumedRecords : Nat
  replicatedSegments : Nat
  replicatedRecords : Nat
  failedSegments : Nat
  failedRecords : Nat
  deriving DecidableEq, Repr

/-- The collaborator answers consumed by one `gather` step: the current
time, the result of `queue.Dequeue`, and the result of
`store.Intersection` on the dequeued records (`none` models a non-nil
error, `some (union, difference)` a successful call). -/
structure GatherInput where
  now : Nat
  dequeue : Except Err (List Record)
  intersection : Option (List Record × List Record)

/-- One step of `Consumer.gather` (pkg/consumer/consumer.go lines
120-171), returning the updated state and the next state function.
Mirrors the source clause by clause: the `gatherErrors` escape, the
`tooBig`/`tooOld` batch cut, dequeue error and empty-dequeue handling,
the dedup filter (on `Intersection` error the whole record list is used
as the difference), the unconditional `activeSince = time.Now()`, and the
metric increments (`consumedRecords.Add(float64(1))`). -/
def Consumer.gather (c : ConsumerState) (inp : GatherInput) : ConsumerState × Phase :=
  if c.gatherErrors > 0 then
    if c.fifo.Len = 0 then ({ c with gatherErrors := 0 }, Phase.gather)
    else (c, Phase.replicate)
  else if c.fifo.Len > c.activeTargetSize ∨
      (c.activeSince ≠ 0 ∧ inp.now - c.activeSince > c.activeTargetAge) then
    (c, Phase.replicate)
  else
    match inp.dequeue with
    | Except.error _ => ({ c with gatherErrors := c.gatherErrors + 1 }, Phase.gather)
    | Except.ok records =>
      if records.isEmpty then (c, Phase.gather)
      else
        let difference := match inp.intersection with
          | none => records
          | some (_, d) => d
        ({ c with
            fifo := difference.foldl (fun f r => f.Add r.id r) c.fifo,
            activeSince := inp.now,
            consumedSegments := c.consumedSegments + 1,
            consumedRecords := c.consumedRecords + 1 },
          Phase.gather)

/-- The transaction built by `Consumer.commit` and `Consumer.failure`: a
`queue.NewTransaction` into which `(v.Value.ID(), v.Value)` is pushed for
every key/value (`transaction.Push` never fails). -/
def txnOf (values : List KeyValue) : List (Nat × Record) :=
  values.map (fun v => (v.value.id, v.value))

/-- Observable calls made to the collaborators during commit/failure,
each carrying the transaction it was given. -/
inductive Ev where
  | append (txn : List (Nat × Record))
  | queueCommit (txn : List (Nat × Record))
  | storeAdd (txn : List (Nat × Record))
  | queueFailed (txn : List (Nat × Record))
  deriving DecidableEq, Repr

/-- Whether an event is the `queue.Commit` call of a transaction whose
id list contains `k`. -/
def isQueueCommitWith (k : Nat) : Ev → Bool
  | Ev.queueCommit txn => (txn.map Prod.fst).contains k
  | _ => false

/-- Whether an event is a `store.Add` (dedup-store) call. -/
def isStoreAdd : Ev → Bool
  | Ev.storeAdd _ => true
  | _ => false

/-- The collaborator answers consumed by one `Consumer.commit` call:
results of `log.Append`, `queue.Commit` and `store.Add` (`none` is the
nil error; the non-error components of the Go results are unused by the
consumer). -/
structure CommitOracle where
  appendErr : Option Err
  queueCommitErr : Option Err
  storeAddErr : Option Err

/-- `Consumer.commit` (pkg/consumer/consumer.go lines 237-265): build the
transaction, append it to the audit log (an error is only logged), call
`queue.Commit` and return its error on failure, then call `store.Add`
and return its error on failure, then `txn.Flush()` (which returns nil).
Returns the trace of collaborator calls and the returned error. -/
def Consumer.commit (values : List KeyValue) (o : CommitOracle) :
    List Ev × Option Err :=
  let txn := txnOf values
  match o.queueCommitErr with
  | some e => ([Ev.append txn, Ev.queueCommit txn], some e)
  | none =>
    match o.storeAddErr with
    | some e => ([Ev.append txn, Ev.queueCommit txn, Ev.storeAdd txn], some e)
    | none => ([Ev.append txn, Ev.queueCommit txn, Ev.storeAdd txn], none)

/-- The collaborator answers consumed by one `Consumer.replicate` step:
the HTTP client's outcome per posted body, and the commit collaborators. -/
structure ReplicateInput where
  send : Nat → Option Err
  commitOracle : CommitOracle

/-- One step of `Consumer.replicate` (pkg/consumer/consumer.go lines
173-205): if the FIFO is empty go back to gather; otherwise drain it
with `client.Send(value.Body())`, always commit the drained entries (a
commit error is only logged), and transition to `failure` exactly when
the drain returned an error, else count the batch as replicated and go
back to gather. -/
def Consumer.replicate (c : ConsumerState) (inp : ReplicateInput) :
    ConsumerState × Phase × List Ev :=
  if c.fifo.Len = 0 then (c, Phase.gather, [])
  else
    let r := c.fifo.Dequeue (fun _ v => inp.send v.body)
    let cm := Consumer.commit r.dequeued inp.commitOracle
    match r.err with
    | some _ => ({ c with fifo := r.fifo }, Phase.failure, cm.1)
    | none =>
      ({ c with
          fifo := r.fifo,
          replicatedSegments := c.replicatedSegments + 1,
          replicatedRecords := c.replicatedRecords + r.dequeued.length },
        Phase.gather, cm.1)

/-- The collaborator answer consumed by one `Consumer.failure` step: the
result of `queue.Failed`. -/
structure FailureInput where
  queueFailedErr : Option Err

/-- One step of `Consumer.failure` (pkg/consumer/consumer.go lines
207-225): build a transaction from every FIFO entry, call
`queue.Failed`; on success bump the failed counters, then purge the FIFO
unconditionally and return to gather. -/
def Consumer.failure (c : ConsumerState) (inp : FailureInput) :
    ConsumerState × Phase × List Ev :=
  let txn := txnOf c.fifo.Slice
  match inp.queueFailedErr with
  | some _ => ({ c with fifo := (c.fifo.Purge).1 }, Phase.gather, [Ev.queueFailed txn])
  | none =>
    ({ c with
        fifo := (c.fifo.Purge).1,
        failedSegments := c.failedSegments + 1,
        failedRecords := c.failedRecords + txn.length },
      Phase.gather, [Ev.queueFailed txn])

/-- Modelled from the spec: the dedup store's backing FIFO set
(pkg/store/fifo) is absent from src (only its test file is present);
per the spec it is a bounded FIFO set of identifiers whose `Contains(k)`
reports membership.  A store state is the list of identifiers currently
held. -/
def storeContains (stored : List String) (ident : String) : Bool :=
  stored.contains ident

/-- The possible outputs of `unique` (pkg/store/virtual.go lines 46-57):
the input is poured into a Go map (collapsing duplicates) and the keys
are read back in unspecified order, so an output is exactly a
duplicate-free list with the same elements as the input. -/
def uniqueOutput (a u : List String) : Prop :=
  u.Nodup ∧ (∀ x ∈ u, x ∈ a) ∧ (∀ x ∈ a, x ∈ u)

instance (a u : List String) : Decidable (uniqueOutput a u) := by
  unfold uniqueOutput
  infer_instance

/-- The loop of `virtualStore.Intersection` (pkg/store/virtual.go lines
26-40), applied to an output `u` of `unique`: each identifier is
appended to `union` (present) when the store contains it, otherwise to
`difference` (absent), preserving the order of `u`. -/
def intersectionLoop (stored : List String) : List String → List String × List String
  | [] => ([], [])
  | x :: rest =>
    let r := intersectionLoop stored rest
    if storeContains stored x then (x :: r.1, r.2) else (r.1, x :: r.2)

/-- The part count of `remoteQueue.Commit` (src/unnamed/part_020 line
153): Go computes `int(float64(len(records))/9 + 0.9)`.  In exact
arithmetic this is `(10n + 81) / 90` rounded down; the float expression
is at distance at least `1/90` from every integer, so float64 rounding
cannot change the truncation for any feasible transaction size. -/
def numParts (n : Nat) : Nat :=
  (10 * n + 81) / 90

/-- The chunking loop of `remoteQueue.Commit` (src/unnamed/part_020
lines 151-162) over an enumeration `kvs` of the `(id, receipt)` map:
entry number `i` is appended to `parts[index]`, after which `index`
becomes `i / 9` (so part 0 receives entries 0..9 and each later part
nine entries).  The fold state is `(i, index, parts)`. -/
def buildParts (kvs : List (Nat × Nat)) : List (List (Nat × Nat)) :=
  (kvs.foldl
    (fun (st : Nat × Nat × List (List (Nat × Nat))) kv =>
      (st.1 + 1, st.1 / 9, st.2.2.set st.2.1 (st.2.2.getD st.2.1 [] ++ [kv])))
    (0, 0, List.replicate (numParts kvs.length) [])).2.2

/-- An entry of a `DeleteMessageBatch` call; `none` models the nil
pointer left in the entity slice by the source. -/
structure SQSEntry where
  id : Nat
  receiptHandle : Nat
  deriving DecidableEq, Repr

/-- The entity slice built per part by `remoteQueue.Commit`
(src/unnamed/part_020 lines 167-173): `make(..., len(records))`
allocates one slot per record of the whole transaction, and the loop
fills only the first `len(part)` of them, leaving the rest nil. -/
def entriesFor (n : Nat) (part : List (Nat × Nat)) : List (Option SQSEntry) :=
  part.map (fun kv => some ⟨kv.1, kv.2⟩) ++ List.replicate (n - part.length) none

/-- The successive `DeleteMessageBatch` calls issued by
`remoteQueue.Commit` for a transaction enumerated as `kvs`: one call per
part, each carrying that part's entity slice. -/
def remoteCommitCalls (kvs : List (Nat × Nat)) : List (List (Option SQSEntry)) :=
  (buildParts kvs).map (entriesFor kvs.length)

/-- The characters strictly after the last occurrence of `sep`, if any. -/
def afterLast (sep : Char) : List Char → Option (List Char)
  | [] => none
  | c :: rest =>
    match afterLast sep rest with
    | some s => some s
    | none => if c = sep then some rest else none

/-- Go's `filepath.Ext` as used by `recoverSegments` and
`modifyExtension` (src/unnamed/part_002): the suffix beginning at the
final dot in the final slash-separated element of the path, empty when
that element has no dot. -/
def fileExt (p : String) : String :=
  let base := (afterLast '/' p.data).getD p.data
  match afterLast '.' base with
  | none => String.mk []
  | some s => String.mk ('.' :: s)

/-- `modifyExtension` (src/unnamed/part_002 lines 221-223):
`filename[:len(filename)-len(filepath.Ext(filename))] + newExt`. -/
def modifyExtension (filename newExt : String) : String :=
  String.mk (filename.data.take (filename.data.length - (fileExt filename).data.length))
    ++ newExt

/-- `strings.HasPrefix`, used by the virtual filesystem's `Walk` to
restrict the walk to paths under the root. -/
def hasPathRoot (root p : String) : Bool :=
  root.data.isPrefixOf p.data

/-- `recoverSegments` (src/unnamed/part_002 lines 192-219) acting on the
filesystem state (the list of file paths): walk the files under root,
collect those whose extension is `.active`, then rename each to the same
name with extension `.failed`.  Rename replaces the old path with the
new one (virtual filesystem semantics). -/
def recoverSegmentsFs (files : List String) (root : String) : List String :=
  let toRename := files.filter (fun p => hasPathRoot root p && fileExt p == ".active")
  toRename.foldl (fun fs p => modifyExtension p ".failed" :: fs.erase p) files

/-- `newLocalLog` (src/unnamed/part_002 lines 125-146) acting on the
filesystem state: `MkdirAll` (a no-op on the virtual filesystem), then
`Lock` creates the `LOCK` file, whose deferred `Release` removes it, and
the constructor returns.  No other filesystem operation is performed:
in particular `recoverSegments` is never invoked. -/
def newLocalLogFs (files : List String) (root : String) : List String :=
  let lock := root ++ "/LOCK"
  (lock :: files).erase lock

/-- Modelled from the spec: the circuit breaker from the external
resilience library wrapped around the HTTP client (it is not code of
this repository).  Per the spec, N consecutive failures
(`defaultFailureRate = 10`) open the circuit for a cool-down
(`defaultFailureTimeout`), during which calls are short-circuited to an
immediate error without invoking the wrapped function. -/
structure CircuitBreaker where
  consecutiveFailures : Nat
  inCooldown : Bool
  deriving DecidableEq, Repr

/-- `defaultFailureRate` (pkg/http client, src/unnamed/part_018). -/
def defaultFailureRate : Nat := 10

/-- Whether the circuit is open: the failure threshold was reached and
the cool-down window has not elapsed. -/
def CircuitBreaker.isOpen (b : CircuitBreaker) : Bool :=
  decide (defaultFailureRate ≤ b.consecutiveFailures) && b.inCooldown

/-- Modelled from the spec: `circuit.Run(f)` short-circuits to an error
while open, otherwise runs `f`, counting consecutive failures. -/
def CircuitBreaker.run (b : CircuitBreaker) (f : Option Err) :
    Option Err × CircuitBreaker :=
  if b.isOpen then (some "circuit open", b)
  else
    match f with
    | some e => (some e, { b with consecutiveFailures := b.consecutiveFailures + 1 })
    | none => (none, { b with consecutiveFailures := 0 })

/-- The outcome of one HTTP POST: a transport error, or a status code. -/
structure PostResponse where
  transportErr : Option Err
  statusCode : Nat
  deriving DecidableEq, Repr

/-- The function `Client.Send` passes to the breaker
(src/unnamed/part_018 lines 36-51): POST the payload; return the
transport error if any, otherwise an error iff the status code is not
200 (`http.StatusOK`). -/
def sendOnce (resp : PostResponse) : Option Err :=
  match resp.transportErr with
  | some e => some e
  | none => if resp.statusCode ≠ 200 then some "invalid status code" else none

/-- `Client.Send` (src/unnamed/part_018 lines 36-51): the POST wrapped
in `circuit.Run`. -/
def clientSend (b : CircuitBreaker) (resp : PostResponse) :
    Option Err × CircuitBreaker :=
  b.run (sendOnce resp)

/-- A sample record for concrete evaluations. -/
def rec1 : Record := ⟨1, 101, 201, 301⟩

/-- A second sample record for concrete evaluations. -/
def rec2 : Record := ⟨2, 102, 202, 302⟩

/-- A third sample record for concrete evaluations. -/
def rec3 : Record := ⟨3, 103, 203, 303⟩

/-- A fresh consumer: empty FIFO, zero `activeSince`, default-like batch
thresholds, all counters zero. -/
def freshConsumer : ConsumerState :=
  ⟨⟨[]⟩, 0, 60, 10, 0, 0, 0, 0, 0, 0, 0⟩

/-- An eleven-record transaction enumeration with distinct ids and
receipts, for evaluating `remoteQueue.Commit`'s chunking. -/
def elevenKVs : List (Nat × Nat) :=
  (List.range 11).map (fun i => (i, i + 100))

/-- A gather input whose dequeue yields two records, both reported absent
by the dedup store. -/
def gatherTwoAbsent : GatherInput :=
  ⟨5, Except.ok [rec1, rec2], some ([], [rec1, rec2])⟩

/-- The consumer after one gather step on `gatherTwoAbsent`. -/
def c4After : ConsumerState :=
  (Consumer.gather freshConsumer gatherTwoAbsent).1

/-- First gather input for the active-since evaluation: time 5, one
absent record. -/
def c9Input1 : GatherInput :=
  ⟨5, Except.ok [rec1], some ([], [rec1])⟩

/-- Second gather input for the active-since evaluation: time 9, another
absent record, while a batch is already active. -/
def c9Input2 : GatherInput :=
  ⟨9, Except.ok [rec2], some ([], [rec2])⟩

/-- The consumer after the first gather of the active-since evaluation. -/
def c9After1 : ConsumerState :=
  (Consumer.gather freshConsumer c9Input1).1

/-- The consumer after the second gather of the active-since evaluation. -/
def c9After2 : ConsumerState :=
  (Consumer.gather c9After1 c9Input2).1

/-- A consumer holding one in-flight record, about to replicate. -/
def c2Before : ConsumerState :=
  ⟨⟨[⟨1, rec1⟩]⟩, 5, 60, 10, 0, 1, 1, 0, 0, 0, 0⟩

/-- A replicate input whose sends all succeed but whose `queue.Commit`
fails. -/
def c2Input : ReplicateInput :=
  ⟨fun _ => none, ⟨none, some "commit failed", none⟩⟩

/-- A three-entry FIFO for evaluating the drain. -/
def drainFifo : FIFO :=
  ⟨[⟨1, rec1⟩, ⟨2, rec2⟩, ⟨3, rec3⟩]⟩

/-- A drain callback failing exactly on the key 2. -/
def drainFn : Nat → Record → Option Err :=
  fun k _ => if k = 2 then some "bad" else none

/-- A circuit breaker that has just reached the failure threshold. -/
def breakerTripped : CircuitBreaker :=
  ⟨10, true⟩

/-- A POST outcome with no transport failure and status 200. -/
def okResponse : PostResponse :=
  ⟨none, 200⟩

/-- The behaviour of `dequeueLoop` on an arbitrary item list, by induction:
success empties the list and returns it whole; an error splits the list
into the successful prefix and the retained suffix headed by the failing
entry; the eviction trace matches the processed entries. -/
theorem dequeueLoop_spec (fn : Nat → Record → Option Err) (items : List KeyValue) :
    ((dequeueLoop fn items).err = none →
      (dequeueLoop fn items).fifo.items = [] ∧
      (dequeueLoop fn items).dequeued = items ∧
      ∀ kv ∈ items, fn kv.key kv.value = none) ∧
    (∀ e, (dequeueLoop fn items).err = some e →
      ∃ p tail, items = (dequeueLoop fn items).dequeued ++ p :: tail ∧
        (dequeueLoop fn items).fifo.items = p :: tail ∧
        (∀ kv ∈ (dequeueLoop fn items).dequeued, fn kv.key kv.value = none) ∧
        fn p.key p.value = some e) ∧
    (dequeueLoop fn items).evictions =
      (dequeueLoop fn items).dequeued.map (fun kv => (EvictionReason.dequeued, kv)) := by
  induction items with
  | nil =>
    refine ⟨fun _ => ⟨rfl, rfl, by simp⟩, fun e he => by simp [dequeueLoop] at he, rfl⟩
  | cons kv rest ih =>
    obtain ⟨ihOk, ihErr, ihEv⟩ := ih
    cases he : fn kv.key kv.value with
    | some e =>
      refine ⟨?_, ?_, ?_⟩
      · intro h
        simp only [dequeueLoop, he] at h
        exact Option.noConfusion h
      · intro e' he'
        simp only [dequeueLoop, he] at he' ⊢
        exact ⟨kv, rest, by simp, by simp, by simp, by rw [he, he']⟩
      · simp only [dequeueLoop, he]
        rfl
    | none =>
      refine ⟨?_, ?_, ?_⟩
      · intro h
        simp only [dequeueLoop, he] at h ⊢
        obtain ⟨h1, h2, h3⟩ := ihOk h
        refine ⟨h1, by rw [h2], ?_⟩
        intro kv' hkv'
        rcases List.mem_cons.mp hkv' with h' | h'
        · rw [h']; exact he
        · exact h3 kv' h'
      · intro e herr
        simp only [dequeueLoop, he] at herr ⊢
        obtain ⟨p, tail, h1, h2, h3, h4⟩ := ihErr e herr
        refine ⟨p, tail, by rw [List.cons_append]; exact congrArg (List.cons kv) h1, h2, ?_, h4⟩
        intro kv' hkv'
        rcases List.mem_cons.mp hkv' with h' | h'
        · rw [h']; exact he
        · exact h3 kv' h'
      · simp only [dequeueLoop, he]
        rw [ihEv]
        rfl

/-- C1.  `FIFO.Dequeue` (drain) processes entries in insertion order from
the head.  On full success the FIFO is left empty and the returned list is
the full original insertion order, every entry having fired the
`dequeued` eviction.  If `fn` fails on some entry, the entries before it
(all of which succeeded) are returned as the processed list, and the
failing entry together with every entry after it remains in the FIFO in
the original order. -/
theorem fifo_dequeue_drain_spec (f : FIFO) (fn : Nat → Record → Option Err) :
    ((f.Dequeue fn).err = none →
      (f.Dequeue fn).fifo.items = [] ∧
      (f.Dequeue fn).dequeued = f.items ∧
      ∀ kv ∈ f.items, fn kv.key kv.value = none) ∧
    (∀ e, (f.Dequeue fn).err = some e →
      ∃ p tail, f.items = (f.Dequeue fn).dequeued ++ p :: tail ∧
        (f.Dequeue fn).fifo.items = p :: tail ∧
        (∀ kv ∈ (f.Dequeue fn).dequeued, fn kv.key kv.value = none) ∧
        fn p.key p.value = some e) ∧
    (f.Dequeue fn).evictions =
      (f.Dequeue fn).dequeued.map (fun kv => (EvictionReason.dequeued, kv)) :=
  dequeueLoop_spec fn f.items

/-- Adding a record list to the FIFO by folding `FIFO.Add` appends the
corresponding key/value pairs in order. -/
theorem foldl_add_items (rs : List Record) (f : FIFO) :
    (rs.foldl (fun f r => f.Add r.id r) f).items
      = f.items ++ rs.map (fun r => (⟨r.id, r⟩ : KeyValue)) := by
  induction rs generalizing f with
  | nil => simp
  | cons r rest ih =>
    rw [List.foldl_cons, ih]
    simp [FIFO.Add]

/-- C10.  In the gather step, when the dedup store's `Intersection` call
returns an error, the consumer uses the whole dequeued record list as
the difference and adds every dequeued record to the in-flight FIFO in
order; no record is dropped because of a dedup-store failure. -/
theorem gather_store_error_keeps_all (c : ConsumerState) (inp : GatherInput)
    (h0 : c.gatherErrors = 0)
    (hbig : ¬ c.fifo.Len > c.activeTargetSize)
    (hold : ¬ (c.activeSince ≠ 0 ∧ inp.now - c.activeSince > c.activeTargetAge))
    (records : List Record) (hdq : inp.dequeue = Except.ok records)
    (hne : records ≠ []) (herr : inp.intersection = none) :
    (Consumer.gather c inp).1.fifo.items
      = c.fifo.items ++ records.map (fun r => (⟨r.id, r⟩ : KeyValue)) := by
  have hcond : ¬ (c.fifo.Len > c.activeTargetSize ∨
      (c.activeSince ≠ 0 ∧ inp.now - c.activeSince > c.activeTargetAge)) := by
    rintro (h | h)
    · exact hbig h
    · exact hold h
  have hne' : records.isEmpty = false := by
    cases records with
    | nil => exact absurd rfl hne
    | cons a t => rfl
  simp [Consumer.gather, h0, hcond, hdq, herr, hne', foldl_add_items]

/-- C10 witness: a fresh consumer, a dequeue of two records, and a
failing dedup store; both records end up in the FIFO. -/
theorem gather_store_error_keeps_all_witness :
    freshConsumer.gatherErrors = 0 ∧
    ¬ freshConsumer.fifo.Len > freshConsumer.activeTargetSize ∧
    ¬ (freshConsumer.activeSince ≠ 0 ∧ 5 - freshConsumer.activeSince > freshConsumer.activeTargetAge) ∧
    (Consumer.gather freshConsumer ⟨5, Except.ok [rec1, rec2], none⟩).1.fifo.items
      = freshConsumer.fifo.items ++ [rec1, rec2].map (fun r => (⟨r.id, r⟩ : KeyValue)) :=
  ⟨rfl, by decide, by decide,
    gather_store_error_keeps_all freshConsumer ⟨5, Except.ok [rec1, rec2], none⟩
      rfl (by decide) (by decide) [rec1, rec2] rfl (by decide) rfl⟩

/-- C9 counterexample: after a first non-empty dequeue at time 5 the
batch is active (`active_since = 5 ≠ 0`); a second non-empty dequeue at
time 9 overwrites `active_since` with 9, so it is not left unchanged by
subsequent adds as claimed. -/
theorem gather_active_since_cx :
    c9After1.activeSince = 5 ∧ c9After1.activeSince ≠ 0 ∧
    c9After2.activeSince = 9 ∧ c9After2.activeSince ≠ c9After1.activeSince := by
  decide

/-- C9 amended: the gather step sets `active_since` to the current time
on every non-empty dequeue, unconditionally (tracking the most recent
add, not the first); an empty dequeue leaves it unchanged. -/
theorem gather_active_since_amended (c : ConsumerState) (inp : GatherInput)
    (h0 : c.gatherErrors = 0)
    (hbig : ¬ c.fifo.Len > c.activeTargetSize)
    (hold : ¬ (c.activeSince ≠ 0 ∧ inp.now - c.activeSince > c.activeTargetAge)) :
    (∀ records, inp.dequeue = Except.ok records → records ≠ [] →
      (Consumer.gather c inp).1.activeSince = inp.now) ∧
    (inp.dequeue = Except.ok [] →
      (Consumer.gather c inp).1.activeSince = c.activeSince) := by
  have hcond : ¬ (c.fifo.Len > c.activeTargetSize ∨
      (c.activeSince ≠ 0 ∧ inp.now - c.activeSince > c.activeTargetAge)) := by
    rintro (h | h)
    · exact hbig h
    · exact hold h
  constructor
  · intro records hdq hne
    have hne' : records.isEmpty = false := by
      cases records with
      | nil => exact absurd rfl hne
      | cons a t => rfl
    cases hint : inp.intersection with
    | none => simp [Consumer.gather, h0, hcond, hdq, hne', hint]
    | some d => simp [Consumer.gather, h0, hcond, hdq, hne', hint]
  · intro hdq
    simp [Consumer.gather, h0, hcond, hdq]

/-- C9 amended witness: a consumer with an already-active batch
(`active_since = 5`) gathers again at time 9 and `active_since` becomes
9. -/
theorem gather_active_since_amended_witness :
    c9After1.gatherErrors = 0 ∧
    ¬ c9After1.fifo.Len > c9After1.activeTargetSize ∧
    ¬ (c9After1.activeSince ≠ 0 ∧ c9Input2.now - c9After1.activeSince > c9After1.activeTargetAge) ∧
    ((∀ records, c9Input2.dequeue = Except.ok records → records ≠ [] →
        (Consumer.gather c9After1 c9Input2).1.activeSince = c9Input2.now) ∧
      (c9Input2.dequeue = Except.ok [] →
        (Consumer.gather c9After1 c9Input2).1.activeSince = c9After1.activeSince)) :=
  ⟨by decide, by decide, by decide,
    gather_active_since_amended c9After1 c9Input2 (by decide) (by decide) (by decide)⟩

/-- C4: evaluation of the code at the failing input.  A fresh consumer
gathers a dequeue of two records, both absent from the dedup store: the
code adds both to the FIFO but increments `consumed_records` by 1
(`c.consumedRecords.Add(float64(1))`), so the claimed balance
`consumed = replicated + failed + in_flight` is already violated. -/
theorem gather_consumed_records_code_eval :
    c4After.consumedRecords = 1 ∧
    c4After.fifo.Len = 2 ∧
    c4After.replicatedRecords = 0 ∧
    c4After.failedRecords = 0 ∧
    ¬ c4After.consumedRecords
        = c4After.replicatedRecords + c4After.failedRecords + c4After.fifo.Len := by
  decide

/-- C1 witness: the drain specification instantiated at a concrete FIFO
and a callback failing on the middle entry. -/
theorem fifo_dequeue_drain_spec_witness :
    ((drainFifo.Dequeue drainFn).err = none →
      (drainFifo.Dequeue drainFn).fifo.items = [] ∧
      (drainFifo.Dequeue drainFn).dequeued = drainFifo.items ∧
      ∀ kv ∈ drainFifo.items, drainFn kv.key kv.value = none) ∧
    (∀ e, (drainFifo.Dequeue drainFn).err = some e →
      ∃ p tail, drainFifo.items = (drainFifo.Dequeue drainFn).dequeued ++ p :: tail ∧
        (drainFifo.Dequeue drainFn).fifo.items = p :: tail ∧
        (∀ kv ∈ (drainFifo.Dequeue drainFn).dequeued, drainFn kv.key kv.value = none) ∧
        drainFn p.key p.value = some e) ∧
    (drainFifo.Dequeue drainFn).evictions =
      (drainFifo.Dequeue drainFn).dequeued.map (fun kv => (EvictionReason.dequeued, kv)) :=
  fifo_dequeue_drain_spec drainFifo drainFn

/-- C2 counterexample: a batch whose drain succeeds for all records and
whose `queue.Commit` returns an error; the replicate step transitions to
Gather, not to Failure. -/
theorem replicate_commit_error_cx :
    (c2Before.fifo.Dequeue (fun _ v => c2Input.send v.body)).err = none ∧
    c2Input.commitOracle.queueCommitErr = some "commit failed" ∧
    (Consumer.replicate c2Before c2Input).2.1 = Phase.gather ∧
    Phase.gather ≠ Phase.failure := by
  decide

/-- C2 amended: when the drain succeeds for all records, the replicate
step transitions to Gather regardless of the outcome of the commit call
(a `queue.Commit` error is only logged), and the batch is still counted
as replicated. -/
theorem replicate_commit_error_amended (c : ConsumerState) (inp : ReplicateInput)
    (hok : (c.fifo.Dequeue (fun _ v => inp.send v.body)).err = none) :
    (Consumer.replicate c inp).2.1 = Phase.gather ∧
    (c.fifo.Len ≠ 0 →
      (Consumer.replicate c inp).1.replicatedRecords
        = c.replicatedRecords
          + (c.fifo.Dequeue (fun _ v => inp.send v.body)).dequeued.length) := by
  by_cases hlen : c.fifo.Len = 0
  · constructor
    · simp [Consumer.replicate, hlen]
    · intro h
      exact absurd hlen h
  · constructor
    · simp [Consumer.replicate, hlen, hok]
    · intro _
      simp [Consumer.replicate, hlen, hok]

/-- C2 amended witness: the amended statement instantiated at the
one-record batch with a failing `queue.Commit`. -/
theorem replicate_commit_error_amended_witness :
    (c2Before.fifo.Dequeue (fun _ v => c2Input.send v.body)).err = none ∧
    ((Consumer.replicate c2Before c2Input).2.1 = Phase.gather ∧
      (c2Before.fifo.Len ≠ 0 →
        (Consumer.replicate c2Before c2Input).1.replicatedRecords
          = c2Before.replicatedRecords
            + (c2Before.fifo.Dequeue (fun _ v => c2Input.send v.body)).dequeued.length)) :=
  ⟨by decide, replicate_commit_error_amended c2Before c2Input (by decide)⟩

/-- C3.  For every id `k` of a drained batch, `Consumer.commit` calls
`queue.Commit` exactly once with a transaction containing `k`; every
dedup-store `Add` happens strictly after that call; and if
`queue.Commit` returns an error, no dedup-store `Add` happens at all. -/
theorem commit_order_spec (values : List KeyValue) (o : CommitOracle) (k : Nat)
    (hk : k ∈ (txnOf values).map Prod.fst) :
    ((Consumer.commit values o).1.countP (isQueueCommitWith k) = 1) ∧
    (∀ i j, i < (Consumer.commit values o).1.length →
      j < (Consumer.commit values o).1.length →
      isQueueCommitWith k ((Consumer.commit values o).1.getD i (Ev.append [])) = true →
      isStoreAdd ((Consumer.commit values o).1.getD j (Ev.append [])) = true →
      i < j) ∧
    (∀ e, o.queueCommitErr = some e →
      ∀ ev ∈ (Consumer.commit values o).1, isStoreAdd ev = false) := by
  have hc : ((txnOf values).map Prod.fst).contains k = true := by
    simpa using hk
  cases hq : o.queueCommitErr with
  | some e =>
    refine ⟨?_, ?_, ?_⟩
    · simp [Consumer.commit, hq, List.countP_cons, isQueueCommitWith, hc, hk]
    · intro i j hi hj h1 h2
      simp only [Consumer.commit, hq, List.length_cons, List.length_nil] at hi hj
      interval_cases j <;> simp_all [isStoreAdd, Consumer.commit]
    · intro e' he' ev hev
      simp only [Consumer.commit, hq, List.mem_cons, List.not_mem_nil, or_false] at hev
      rcases hev with h | h <;> simp [h, isStoreAdd]
  | none =>
    cases hs : o.storeAddErr with
    | some e =>
      refine ⟨?_, ?_, ?_⟩
      · simp [Consumer.commit, hq, hs, List.countP_cons, isQueueCommitWith, isStoreAdd, hc, hk]
      · intro i j hi hj h1 h2
        simp only [Consumer.commit, hq, hs, List.length_cons, List.length_nil] at hi hj
        interval_cases i <;> interval_cases j <;>
          simp_all [isStoreAdd, isQueueCommitWith, Consumer.commit]
      · intro e' he'
        exact Option.noConfusion he'
    | none =>
      refine ⟨?_, ?_, ?_⟩
      · simp [Consumer.commit, hq, hs, List.countP_cons, isQueueCommitWith, isStoreAdd, hc, hk]
      · intro i j hi hj h1 h2
        simp only [Consumer.commit, hq, hs, List.length_cons, List.length_nil] at hi hj
        interval_cases i <;> interval_cases j <;>
          simp_all [isStoreAdd, isQueueCommitWith, Consumer.commit]
      · intro e' he'
        exact Option.noConfusion he'

/-- C3 witness: the ordering specification instantiated at a one-record
batch with id 1 and a fully successful commit. -/
theorem commit_order_spec_witness :
    (1 ∈ (txnOf [⟨1, rec1⟩]).map Prod.fst) ∧
    (((Consumer.commit [⟨1, rec1⟩] ⟨none, none, none⟩).1.countP (isQueueCommitWith 1) = 1) ∧
      (∀ i j, i < (Consumer.commit [⟨1, rec1⟩] ⟨none, none, none⟩).1.length →
        j < (Consumer.commit [⟨1, rec1⟩] ⟨none, none, none⟩).1.length →
        isQueueCommitWith 1 ((Consumer.commit [⟨1, rec1⟩] ⟨none, none, none⟩).1.getD i (Ev.append [])) = true →
        isStoreAdd ((Consumer.commit [⟨1, rec1⟩] ⟨none, none, none⟩).1.getD j (Ev.append [])) = true →
        i < j) ∧
      (∀ e, (⟨none, none, none⟩ : CommitOracle).queueCommitErr = some e →
        ∀ ev ∈ (Consumer.commit [⟨1, rec1⟩] ⟨none, none, none⟩).1, isStoreAdd ev = false)) :=
  ⟨by decide, commit_order_spec [⟨1, rec1⟩] ⟨none, none, none⟩ 1 (by decide)⟩

/-- C5: evaluation of the code at the failing input.  For a transaction
of eleven records the chunking of `remoteQueue.Commit` produces two
`DeleteMessageBatch` calls, but each call's entity slice is allocated
with `make(..., len(records))`, so both calls carry eleven entries (the
slots beyond the chunk stay nil), exceeding the SQS batch limit of 10. -/
theorem remote_commit_chunk_code_eval :
    (remoteCommitCalls elevenKVs).length = 2 ∧
    (∀ call ∈ remoteCommitCalls elevenKVs, call.length = 11) ∧
    ¬ (∀ call ∈ remoteCommitCalls elevenKVs, call.length ≤ 10) ∧
    (∃ call ∈ remoteCommitCalls elevenKVs, none ∈ call) := by
  decide

/-- `intersectionLoop` partitions its input into the identifiers the
store contains and the rest, preserving order: it equals the two
filters. -/
theorem intersectionLoop_eq_filter (stored u : List String) :
    intersectionLoop stored u
      = (u.filter (fun x => storeContains stored x),
          u.filter (fun x => ! storeContains stored x)) := by
  induction u with
  | nil => rfl
  | cons x rest ih =>
    simp only [intersectionLoop, ih]
    cases h : storeContains stored x <;> simp [List.filter, h]

/-- C6 counterexample.  With the duplicate input `["a", "a"]` and an
empty store, every admissible output of `unique` is `["a"]`, so `present
++ absent` is the singleton multiset and cannot equal the input as a
multiset.  Moreover `unique` may enumerate the Go map in any order: for
the input `["b", "a"]` with both identifiers stored, the admissible
enumeration `["a", "b"]` makes `present = ["a", "b"]`, which does not
preserve the input order. -/
theorem store_intersection_cx :
    (∀ u, uniqueOutput ["a", "a"] u →
      ¬ ((((intersectionLoop [] u).1 ++ (intersectionLoop [] u).2 : List String) : Multiset String)
          = (["a", "a"] : List String))) ∧
    (uniqueOutput ["b", "a"] ["a", "b"] ∧
      (intersectionLoop ["a", "b"] ["a", "b"]).1 = ["a", "b"] ∧
      ¬ List.Sublist (intersectionLoop ["a", "b"] ["a", "b"]).1 ["b", "a"]) := by
  constructor
  · intro u hu
    obtain ⟨hnd, hsub, hsup⟩ := hu
    have ha : "a" ∈ u := hsup "a" (by simp)
    have hu1 : u = ["a"] := by
      cases u with
      | nil => simp at ha
      | cons x rest =>
        have hx : x = "a" := by
          have := hsub x (by simp)
          simpa using this
        cases rest with
        | nil => rw [hx]
        | cons y t =>
          have hy : y = "a" := by
            have := hsub y (by simp)
            simpa using this
          rw [hx, hy] at hnd
          simp at hnd
    rw [hu1]
    decide
  · exact ⟨by decide, by decide, by decide⟩

/-- C6 amended.  For a duplicate-free input `xs` and any admissible
output `u` of `unique` (the Go map enumeration), `Intersection` returns
`(present, absent)` with `present ++ absent` equal to `xs` as a
multiset, `present` and `absent` disjoint, `present` exactly the input
identifiers the store contains and `absent` exactly the rest; the order
of `present` follows the unspecified map enumeration rather than the
input order, and duplicated input identifiers are collapsed first. -/
theorem store_intersection_amended (stored xs u : List String)
    (hxs : xs.Nodup) (hu : uniqueOutput xs u) :
    ((((intersectionLoop stored u).1 ++ (intersectionLoop stored u).2 : List String) : Multiset String)
        = (xs : Multiset String)) ∧
    (∀ x ∈ (intersectionLoop stored u).1, x ∉ (intersectionLoop stored u).2) ∧
    (∀ x, x ∈ (intersectionLoop stored u).1 ↔ x ∈ xs ∧ storeContains stored x = true) ∧
    (∀ x, x ∈ (intersectionLoop stored u).2 ↔ x ∈ xs ∧ storeContains stored x = false) := by
  obtain ⟨hnd, hsub, hsup⟩ := hu
  have hperm : u.Perm xs :=
    (List.perm_ext_iff_of_nodup hnd hxs).mpr (fun a => ⟨fun h => hsub a h, fun h => hsup a h⟩)
  rw [intersectionLoop_eq_filter]
  refine ⟨?_, ?_, ?_, ?_⟩
  · exact Multiset.coe_eq_coe.mpr ((List.filter_append_perm _ u).trans hperm)
  · intro x hx1 hx2
    rw [List.mem_filter] at hx1 hx2
    rw [hx1.2] at hx2
    exact Bool.noConfusion hx2.2
  · intro x
    rw [List.mem_filter, hperm.mem_iff]
  · intro x
    rw [List.mem_filter, hperm.mem_iff]
    constructor
    · rintro ⟨h1, h2⟩
      exact ⟨h1, by simpa using h2⟩
    · rintro ⟨h1, h2⟩
      exact ⟨h1, by simpa using h2⟩

/-- C6 amended witness: the store holds `"a"`, the duplicate-free input
is `["b", "a"]`, and the map enumerates it as `["a", "b"]`. -/
theorem store_intersection_amended_witness :
    (["b", "a"] : List String).Nodup ∧ uniqueOutput ["b", "a"] ["a", "b"] ∧
    (((((intersectionLoop ["a"] ["a", "b"]).1 ++ (intersectionLoop ["a"] ["a", "b"]).2 : List String) : Multiset String)
        = ((["b", "a"] : List String) : Multiset String)) ∧
      (∀ x ∈ (intersectionLoop ["a"] ["a", "b"]).1, x ∉ (intersectionLoop ["a"] ["a", "b"]).2) ∧
      (∀ x, x ∈ (intersectionLoop ["a"] ["a", "b"]).1 ↔ x ∈ (["b", "a"] : List String) ∧ storeContains ["a"] x = true) ∧
      (∀ x, x ∈ (intersectionLoop ["a"] ["a", "b"]).2 ↔ x ∈ (["b", "a"] : List String) ∧ storeContains ["a"] x = false)) :=
  ⟨by decide, by decide, store_intersection_amended ["a"] ["b", "a"] ["a", "b"] (by decide) (by decide)⟩

/-- C7: evaluation of the code at the failing input.  With a stale
`.active` file under root, constructing the local audit log only takes
and releases the lock file; the stale file keeps its `.active` name and
no `.failed` file appears, because `newLocalLog` never invokes
`recoverSegments`.  The unused `recoverSegments`, had it been called,
would have performed exactly the claimed rename. -/
theorem local_log_no_recovery_code_eval :
    newLocalLogFs ["/root/a.active"] "/root" = ["/root/a.active"] ∧
    "/root/a.failed" ∉ newLocalLogFs ["/root/a.active"] "/root" ∧
    recoverSegmentsFs ["/root/a.active"] "/root" = ["/root/a.failed"] := by
  decide

/-- C8 counterexample: with the circuit breaker open (ten consecutive
failures, inside the cool-down), `Client.Send` returns an error even
though the POST would have suffered no transport failure and would have
returned status 200 — the claimed "error only if transport failure or
non-200" fails. -/
theorem client_send_open_circuit_cx :
    okResponse.transportErr = none ∧
    okResponse.statusCode = 200 ∧
    (clientSend breakerTripped okResponse).1 ≠ none := by
  decide

/-- C8 amended: provided the circuit breaker is closed (fewer than ten
consecutive failures, or the cool-down has elapsed), `Client.Send`
returns an error iff the POST suffers a transport failure or the status
code is not 200; every non-200 status, including other 2xx codes,
yields an error and a 200 response yields nil.  When the breaker is
open, `Send` errors immediately without issuing the POST. -/
theorem client_send_amended (b : CircuitBreaker) (resp : PostResponse)
    (hclosed : b.isOpen = false) :
    ((clientSend b resp).1 ≠ none ↔ (resp.transportErr ≠ none ∨ resp.statusCode ≠ 200)) ∧
    (resp.transportErr = none → resp.statusCode = 200 → (clientSend b resp).1 = none) := by
  cases ht : resp.transportErr with
  | some e => simp [clientSend, CircuitBreaker.run, hclosed, sendOnce, ht]
  | none =>
    by_cases hs : resp.statusCode = 200
    · simp [clientSend, CircuitBreaker.run, hclosed, sendOnce, ht, hs]
    · simp [clientSend, CircuitBreaker.run, hclosed, sendOnce, ht, hs]

/-- C8 amended witness: a fresh (closed) breaker and a 503 response;
`Send` errors, matching the non-200 disjunct. -/
theorem client_send_amended_witness :
    (⟨0, false⟩ : CircuitBreaker).isOpen = false ∧
    (((clientSend ⟨0, false⟩ ⟨none, 503⟩).1 ≠ none ↔
        ((⟨none, 503⟩ : PostResponse).transportErr ≠ none ∨
          (⟨none, 503⟩ : PostResponse).statusCode ≠ 200)) ∧
      ((⟨none, 503⟩ : PostResponse).transportErr = none →
        (⟨none, 503⟩ : PostResponse).statusCode = 200 →
        (clientSend ⟨0, false⟩ ⟨none, 503⟩).1 = none)) :=
  ⟨rfl, client_send_amended ⟨0, false⟩ ⟨none, 503⟩ rfl⟩

end Courier
